import Mathlib

/-!
Verification of the change-tracking / deferred-save protocol and the
role-filtered link iterator of `polarion/workitem.py` (python-polarion).

The embedding models a work item's mirrored record as an association list
from field names to values of an arbitrary type `V` with decidable value
equality (Python `!=` on field values).  The zeep raw record's two-level
attribute dictionary (`__dict__.items()` followed by iteration over each
value's keys) is flattened into a single field list, which is how both
`save` and `_buildWorkitemFromPolarion` consume it.
-/

namespace Polarion

/-- A raw work item record as returned by the Tracker service
(`getWorkItemByUri` / `getWorkItemById`).  `unresolvable` mirrors the
`.unresolvable` flag checked by `_buildWorkitemFromPolarion`. -/
structure RawRecord (V : Type) where
  unresolvable : Bool
  fields : List (String × V)
deriving DecidableEq

/-- `getattr(obj, k)` over a field list: the value at the first binding of
key `k`, or `none` (Python would raise `AttributeError`). -/
def lookupF {V : Type} (fields : List (String × V)) (k : String) : Option V :=
  (fields.find? (fun p => p.1 == k)).map (fun p => p.2)

/-- `setattr(obj, k, v)` over a field list: replace every binding of `k`
(Python attribute assignment overwrites the single binding), or append a
new binding when `k` is absent. -/
def setattrF {V : Type} (fields : List (String × V)) (k : String) (v : V) :
    List (String × V) :=
  if fields.any (fun p => p.1 == k) then
    fields.map (fun p => if p.1 == k then (k, v) else p)
  else
    fields ++ [(k, v)]

/-- The projection loop of `_buildWorkitemFromPolarion`:
`for key in value: setattr(self, key, value[key])` over all raw fields. -/
def projectFields {V : Type} (shadow : List (String × V))
    (fields : List (String × V)) : List (String × V) :=
  fields.foldl (fun s p => setattrF s p.1 p.2) shadow

/-- The client-side state of one `Workitem` object: the last fetched raw
record (`self._polarion_item`), the pristine snapshot
(`self._original_polarion`, absent until the first build), the shadow
field values projected onto the entity itself, the deferred-save flag
(`self._postpone_save`) and the identifying reference (`self.uri`). -/
structure Workitem (V : Type) where
  polarion_item : Option (RawRecord V)
  original_polarion : Option (RawRecord V)
  shadow : List (String × V)
  postpone_save : Bool
  uri : String
deriving DecidableEq

/-- Errors surfaced by the mirror: `accessError` is the
`PolarionAccessError` raised by `_buildWorkitemFromPolarion` for an
unresolvable record, `remoteUpdateError` is a fault raised by the remote
`updateWorkItem` call. -/
inductive SaveError
  | accessError
  | remoteUpdateError
deriving DecidableEq

/-- `_buildWorkitemFromPolarion` (workitem.py lines 145-154): if the raw
record is present and resolvable, deep-copy it into the snapshot and,
unless a deferred-save scope is active, project every raw field onto the
shadow; otherwise raise `PolarionAccessError`. -/
def Workitem.buildWorkitemFromPolarion {V : Type} (w : Workitem V) :
    Except SaveError (Workitem V) :=
  match w.polarion_item with
  | some item =>
    if item.unresolvable then
      Except.error SaveError.accessError
    else
      if w.postpone_save = false then
        Except.ok { w with original_polarion := some item,
                           shadow := projectFields w.shadow item.fields }
      else
        Except.ok { w with original_polarion := some item }
  | none => Except.error SaveError.accessError

/-- `_reloadFromPolarion` (lines 1022-1025): refetch the raw record
(`fetched` stands for the Tracker service's reply) and rebuild.  On a
build failure the error is paired with the state at the raise point: the
raw record was already replaced, snapshot and shadow were not. -/
def Workitem.reloadFromPolarion {V : Type} (w : Workitem V)
    (fetched : RawRecord V) : Except (SaveError × Workitem V) (Workitem V) :=
  let w' := { w with polarion_item := some fetched }
  match w'.buildWorkitemFromPolarion with
  | Except.ok w'' => Except.ok w''
  | Except.error e => Except.error (e, w')

/-- Construction from a freshly fetched raw record (`__init__` ending in
`_buildWorkitemFromPolarion`): the flag starts false and no shadow
attributes exist before the first projection. -/
def constructWorkitem {V : Type} (uri : String) (fetched : RawRecord V) :
    Except SaveError (Workitem V) :=
  Workitem.buildWorkitemFromPolarion
    { polarion_item := some fetched, original_polarion := none,
      shadow := [], postpone_save := false, uri := uri }

/-- The inline diff loop of `save` (lines 920-925): for every key of the
raw record compare `getattr(self, key)` with
`getattr(self._original_polarion, key)` and collect the shadow value of
every key whose value differs.  A missing raw record or snapshot would
raise in Python before any comparison; such states yield no entries. -/
def Workitem.diff {V : Type} [DecidableEq V] (w : Workitem V) :
    List (String × V) :=
  match w.polarion_item, w.original_polarion with
  | some item, some orig =>
    item.fields.filterMap (fun p =>
      match lookupF w.shadow p.1, lookupF orig.fields p.1 with
      | some current_value, some prev_value =>
        if current_value ≠ prev_value then some (p.1, current_value) else none
      | _, _ => none)
  | _, _ => []

/-- One `service.updateWorkItem(updated_item)` request: the changed-field
mapping built by the diff loop, plus the identifying reference added by
`updated_item['uri'] = self.uri` (line 927). -/
structure UpdateCall (V : Type) where
  fields : List (String × V)
  uri : String
deriving DecidableEq

/-- Outcome of the remote round trip attempted by `save` when the diff is
nonempty: either `updateWorkItem` succeeds and the reload's
`getWorkItemByUri` returns `fetched`, or `updateWorkItem` raises. -/
inductive RemoteOutcome (V : Type)
  | ok (fetched : RawRecord V)
  | fail
deriving DecidableEq

/-- Result of one `save` invocation: the state of the entity afterwards
(at the raise point when an error propagates), the propagated error if
any, and the trace of issued `updateWorkItem` calls. -/
structure SaveResult (V : Type) where
  state : Workitem V
  error : Option SaveError
  calls : List (UpdateCall V)
deriving DecidableEq

/-- `save` (lines 912-930): a no-op while postponed; otherwise build the
changed-field mapping and, only when it is nonempty, add the uri, issue
one `updateWorkItem` call and reload.  A raising `updateWorkItem`
(`RemoteOutcome.fail`) propagates with the state untouched. -/
def Workitem.save {V : Type} [DecidableEq V] (w : Workitem V)
    (remote : RemoteOutcome V) : SaveResult V :=
  if w.postpone_save then ⟨w, none, []⟩
  else
    let updated_item := w.diff
    if 0 < updated_item.length then
      match remote with
      | RemoteOutcome.fail =>
        ⟨w, some SaveError.remoteUpdateError, [⟨updated_item, w.uri⟩]⟩
      | RemoteOutcome.ok fetched =>
        match w.reloadFromPolarion fetched with
        | Except.ok w' => ⟨w', none, [⟨updated_item, w.uri⟩]⟩
        | Except.error (e, w') => ⟨w', some e, [⟨updated_item, w.uri⟩]⟩
    else ⟨w, none, []⟩

/-- `__enter__` (lines 137-139): set the deferred-save flag. -/
def Workitem.enterScope {V : Type} (w : Workitem V) : Workitem V :=
  { w with postpone_save := true }

set_option linter.unusedVariables false in
/-- `__exit__` (lines 141-143): unconditionally clear the flag, then call
`save`.  The exception information passed by the runtime (`exc`) is
ignored, exactly as the source ignores `exc_type`, `exc_val`, `exc_tb`. -/
def Workitem.exitScope {V : Type} [DecidableEq V] (w : Workitem V)
    (exc : Option Unit) (remote : RemoteOutcome V) : SaveResult V :=
  { w with postpone_save := false }.save remote

/-- A plain field mutation `setattr(workitem, k, v)` performed by the
caller on the entity's shadow. -/
def Workitem.setField {V : Type} (w : Workitem V) (k : String) (v : V) :
    Workitem V :=
  { w with shadow := setattrF w.shadow k v }

/-- A sequence of field mutations applied in order. -/
def Workitem.mutateAll {V : Type} (w : Workitem V)
    (ms : List (String × V)) : Workitem V :=
  ms.foldl (fun a p => a.setField p.1 p.2) w

/-!
The link iterator (`Workitem.WorkItemIterator`, lines 965-1014).  The
target reference type is an arbitrary `V`.  `role = none` models a raw
edge whose role sub-structure is absent (`obj.role.id` raises
`AttributeError`); `workItemURI = none` models a raw edge missing its
target attribute (`obj.workItemURI` raises `AttributeError`).
-/

/-- One raw linked-work-item edge as stored in the zeep container. -/
structure RawLinkedWorkitem (V : Type) where
  role : Option String
  workItemURI : Option V
deriving DecidableEq

/-- The raw bidirectional edge container
(`self._polarion_item.linkedWorkItems` or `linkedWorkItemsDerived`); its
`LinkedWorkItem` attribute may be absent
(`none`, an `AttributeError` on access). -/
structure RawLinkContainer (V : Type) where
  LinkedWorkItem : Option (List (RawLinkedWorkitem V))
deriving DecidableEq

/-- The yielded value: `LinkedWorkitem = namedtuple('LinkedWorkitem',
['role', 'uri'])` (line 16). -/
structure LinkedWorkitem (V : Type) where
  role : String
  uri : V
deriving DecidableEq

/-- The Python faults caught by the `except` clauses of `__next__`. -/
inductive PyFault
  | attributeError
  | indexError
deriving DecidableEq

/-- The allow/deny lists built by the iterator constructor; `none` is the
Python `None` sentinel tested by `is None` in the filter predicate. -/
structure RoleFilters where
  disallowed_roles : Option (List String)
  allowed_roles : Option (List String)
deriving DecidableEq

/-- One step of the constructor's role loop (lines 976-984): a token
starting with `~` is appended, stripped of the marker, to the deny-list
(initialized on first use); any other token is appended to the
allow-list. -/
def parseStep (f : RoleFilters) (role : String) : RoleFilters :=
  if role.startsWith "~" then
    { f with disallowed_roles := some ((f.disallowed_roles.getD []) ++ [role.drop 1]) }
  else
    { f with allowed_roles := some ((f.allowed_roles.getD []) ++ [role]) }

/-- The constructor's filter parsing (lines 972-984).  A caller-supplied
single string is normalized to a one-element list (`(roles,)`), so the
input is modeled directly as an optional token list. -/
def parseRoles (roles : Option (List String)) : RoleFilters :=
  match roles with
  | none => ⟨none, none⟩
  | some rs => rs.foldl parseStep ⟨none, none⟩

/-- The filter predicate of `__next__` (lines 1005-1006):
`(disallowed is None or role not in disallowed) and
(allowed is None or role in allowed)`. -/
def rolePasses (dis allow : Option (List String)) (role : String) : Bool :=
  (match dis with
   | none => true
   | some l => !(l.contains role))
  &&
  (match allow with
   | none => true
   | some l => l.contains role)

/-- Role derivation for one raw edge (lines 998-1001):
`try: role = obj.role.id  except AttributeError: role = 'NA'`. -/
def deriveRole {V : Type} (e : RawLinkedWorkitem V) : String :=
  match e.role with
  | some r => r
  | none => "NA"

/-- The body of `__next__`'s `try` block, scanning from the cursor
(represented by the not-yet-scanned suffix of the edge list): either the
next passing edge paired with the remaining suffix, `ok none` when the
cursor exhausts the list (`raise StopIteration`, line 1009, which the
`except` clauses do not catch), or an uncaught-inside-the-body
`AttributeError` from a missing target attribute (line 1003). -/
def scanBody {V : Type} (dis allow : Option (List String)) :
    List (RawLinkedWorkitem V) →
      Except PyFault (Option (LinkedWorkitem V × List (RawLinkedWorkitem V)))
  | [] => Except.ok none
  | obj :: rest =>
    let role := deriveRole obj
    match obj.workItemURI with
    | none => Except.error PyFault.attributeError
    | some uri =>
      if rolePasses dis allow role then Except.ok (some (⟨role, uri⟩, rest))
      else scanBody dis allow rest

/-- The full sequence produced by calling `__next__` until it signals
`StopIteration`: each call either yields the next passing edge, ends the
iteration at the end of the list, or ends it early when the body's
`AttributeError`/`IndexError` is converted to `StopIteration` by the
handlers at lines 1011-1014 (`drainBody_eq_scanBody` below shows this
recursion is exactly that loop). -/
def drainBody {V : Type} (dis allow : Option (List String)) :
    List (RawLinkedWorkitem V) → List (LinkedWorkitem V)
  | [] => []
  | obj :: rest =>
    let role := deriveRole obj
    match obj.workItemURI with
    | none => []
    | some uri =>
      if rolePasses dis allow role then ⟨role, uri⟩ :: drainBody dis allow rest
      else drainBody dis allow rest

/-- `iterateLinkedWorkItems` / `iterateLinkedWorkItemsDerived` (lines
1016-1020) followed by exhausting the returned iterator: a `None`
container raises `StopIteration` immediately (lines 990-991); a container
without the `LinkedWorkItem` attribute raises `AttributeError`, caught
and converted to `StopIteration`; otherwise the edge list is scanned. -/
def iterateLinkedWorkItems {V : Type}
    (linkedWorkItems : Option (RawLinkContainer V))
    (roles : Option (List String)) : List (LinkedWorkitem V) :=
  let f := parseRoles roles
  match linkedWorkItems with
  | none => []
  | some c =>
    match c.LinkedWorkItem with
    | none => []
    | some lst => drainBody f.disallowed_roles f.allowed_roles lst

/-!
Claim-side vocabulary: the allow-list and deny-list as the claims state
them — the plain tokens, and the `~`-prefixed tokens with the marker
stripped — and the claimed membership predicate.
-/

/-- The allow-list of a filter token set: its plain tokens. -/
def allowTokens (rs : List String) : List String :=
  rs.filter (fun r => !(r.startsWith "~"))

/-- The deny-list of a filter token set: its `~`-prefixed tokens, with
the marker stripped. -/
def denyTokens (rs : List String) : List String :=
  (rs.filter (fun r => r.startsWith "~")).map (fun r => r.drop 1)

/-- The claimed filter predicate: an edge is yielded iff (the deny-list
is empty or its role is not in it) and (the allow-list is empty or its
role is in it). -/
def claimMatches (rs : List String) (role : String) : Bool :=
  ((denyTokens rs).isEmpty || !((denyTokens rs).contains role))
  && ((allowTokens rs).isEmpty || (allowTokens rs).contains role)

/-! Basic lemmas about the field-list operations. -/

theorem lookupF_nil {V : Type} (k : String) : lookupF ([] : List (String × V)) k = none := rfl

theorem lookupF_cons_pos {V : Type} (x : String × V) (l : List (String × V))
    (k : String) (h : x.1 = k) : lookupF (x :: l) k = some x.2 := by
  unfold lookupF
  rw [List.find?_cons_of_pos _ (by simp [h])]
  rfl

theorem lookupF_cons_neg {V : Type} (x : String × V) (l : List (String × V))
    (k : String) (h : x.1 ≠ k) : lookupF (x :: l) k = lookupF l k := by
  unfold lookupF
  rw [List.find?_cons_of_neg _ (by simp [h])]

theorem lookupF_map_update_self {V : Type} (s : List (String × V)) (k : String)
    (v : V) (h : s.any (fun p => p.1 == k) = true) :
    lookupF (s.map (fun p => if p.1 == k then (k, v) else p)) k = some v := by
  induction s with
  | nil => simp at h
  | cons p rest ih =>
    simp only [List.any_cons, Bool.or_eq_true] at h
    by_cases hp : p.1 = k
    · rw [List.map_cons, if_pos (by simp [hp]), lookupF_cons_pos (k, v) _ k rfl]
    · have hr : rest.any (fun p => p.1 == k) = true := by
        rcases h with h | h
        · exact absurd (by simpa using h) hp
        · exact h
      rw [List.map_cons, if_neg (by simp [hp]), lookupF_cons_neg p _ k hp]
      exact ih hr

theorem lookupF_map_update_ne {V : Type} (s : List (String × V)) (k k' : String)
    (v : V) (h : k' ≠ k) :
    lookupF (s.map (fun p => if p.1 == k then (k, v) else p)) k' = lookupF s k' := by
  induction s with
  | nil => rfl
  | cons p rest ih =>
    by_cases hp : p.1 = k
    · rw [List.map_cons, if_pos (by simp [hp]),
          lookupF_cons_neg (k, v) _ k' (Ne.symm h),
          lookupF_cons_neg p rest k' (by rw [hp]; exact Ne.symm h)]
      exact ih
    · by_cases hq : p.1 = k'
      · rw [List.map_cons, if_neg (by simp [hp]), lookupF_cons_pos p _ k' hq,
            lookupF_cons_pos p rest k' hq]
      · rw [List.map_cons, if_neg (by simp [hp]), lookupF_cons_neg p _ k' hq,
            lookupF_cons_neg p rest k' hq]
        exact ih

theorem lookupF_append_single {V : Type} (s : List (String × V)) (k : String)
    (v : V) (h : s.any (fun p => p.1 == k) = false) :
    lookupF (s ++ [(k, v)]) k = some v := by
  induction s with
  | nil => exact lookupF_cons_pos (k, v) [] k rfl
  | cons p rest ih =>
    simp only [List.any_cons, Bool.or_eq_false_iff] at h
    have hp : p.1 ≠ k := by simpa using h.1
    rw [List.cons_append, lookupF_cons_neg p _ k hp]
    exact ih h.2

theorem lookupF_append_single_ne {V : Type} (s : List (String × V))
    (k k' : String) (v : V) (h : k' ≠ k) :
    lookupF (s ++ [(k, v)]) k' = lookupF s k' := by
  induction s with
  | nil =>
    rw [List.nil_append, lookupF_cons_neg (k, v) [] k' (Ne.symm h)]
  | cons p rest ih =>
    by_cases hq : p.1 = k'
    · rw [List.cons_append, lookupF_cons_pos p _ k' hq, lookupF_cons_pos p rest k' hq]
    · rw [List.cons_append, lookupF_cons_neg p _ k' hq, lookupF_cons_neg p rest k' hq]
      exact ih

theorem lookupF_setattrF_self {V : Type} (s : List (String × V)) (k : String)
    (v : V) : lookupF (setattrF s k v) k = some v := by
  unfold setattrF
  by_cases h : s.any (fun p => p.1 == k) = true
  · rw [if_pos h]; exact lookupF_map_update_self s k v h
  · rw [if_neg h]
    exact lookupF_append_single s k v (Bool.eq_false_iff.mpr h)

theorem lookupF_setattrF_ne {V : Type} (s : List (String × V)) (k k' : String)
    (v : V) (h : k' ≠ k) : lookupF (setattrF s k v) k' = lookupF s k' := by
  unfold setattrF
  by_cases ha : s.any (fun p => p.1 == k) = true
  · rw [if_pos ha]; exact lookupF_map_update_ne s k k' v h
  · rw [if_neg ha]; exact lookupF_append_single_ne s k k' v h

theorem lookupF_projectFields_not_mem {V : Type} (fields : List (String × V))
    (s : List (String × V)) (k : String) (hk : k ∉ fields.map Prod.fst) :
    lookupF (projectFields s fields) k = lookupF s k := by
  induction fields generalizing s with
  | nil => rfl
  | cons p rest ih =>
    simp only [List.map_cons, List.mem_cons, not_or] at hk
    have step : projectFields s (p :: rest)
        = projectFields (setattrF s p.1 p.2) rest := rfl
    rw [step, ih (setattrF s p.1 p.2) hk.2,
        lookupF_setattrF_ne s p.1 k p.2 hk.1]

theorem lookupF_projectFields_mem {V : Type} (fields : List (String × V))
    (s : List (String × V)) (k : String)
    (hnd : (fields.map Prod.fst).Nodup) (hk : k ∈ fields.map Prod.fst) :
    lookupF (projectFields s fields) k = lookupF fields k := by
  induction fields generalizing s with
  | nil => simp at hk
  | cons p rest ih =>
    simp only [List.map_cons, List.nodup_cons] at hnd
    simp only [List.map_cons, List.mem_cons] at hk
    have step : projectFields s (p :: rest)
        = projectFields (setattrF s p.1 p.2) rest := rfl
    rcases hk with hk | hk
    · subst hk
      rw [step, lookupF_projectFields_not_mem rest (setattrF s p.1 p.2) p.1 hnd.1,
          lookupF_setattrF_self, lookupF_cons_pos p rest p.1 rfl]
    · have hne : k ≠ p.1 := fun hh => hnd.1 (hh ▸ hk)
      rw [step, ih (setattrF s p.1 p.2) hnd.2 hk,
          lookupF_cons_neg p rest k (Ne.symm hne)]

/-! Lemmas about the diff loop and `save`. -/

theorem mem_diff {V : Type} [DecidableEq V] {w : Workitem V}
    {item orig : RawRecord V} (hi : w.polarion_item = some item)
    (ho : w.original_polarion = some orig) (k : String) (v : V) :
    (k, v) ∈ w.diff ↔
      (k ∈ item.fields.map Prod.fst ∧ lookupF w.shadow k = some v ∧
        ∃ pv, lookupF orig.fields k = some pv ∧ v ≠ pv) := by
  unfold Workitem.diff
  rw [hi, ho]
  constructor
  · intro h
    rw [List.mem_filterMap] at h
    obtain ⟨p, hp, hfp⟩ := h
    rcases h1 : lookupF w.shadow p.1 with _ | cur <;>
      rcases h2 : lookupF orig.fields p.1 with _ | pv <;>
      rw [h1, h2] at hfp
    · exact Option.noConfusion hfp
    · exact Option.noConfusion hfp
    · exact Option.noConfusion hfp
    · have hfp' : (if cur ≠ pv then some (p.1, cur) else none) = some (k, v) := hfp
      by_cases hv : cur = pv
      · rw [if_neg (fun hc => hc hv)] at hfp'
        exact Option.noConfusion hfp'
      · rw [if_pos hv] at hfp'
        have hpair := Option.some.inj hfp'
        have hk1 : p.1 = k := congrArg Prod.fst hpair
        have hv1 : cur = v := congrArg Prod.snd hpair
        refine ⟨List.mem_map.mpr ⟨p, hp, hk1⟩, ?_, pv, ?_, ?_⟩
        · rw [← hk1, h1, hv1]
        · rw [← hk1, h2]
        · rw [← hv1]; exact hv
  · rintro ⟨hk, hcur, pv, hprev, hne⟩
    rw [List.mem_filterMap]
    rw [List.mem_map] at hk
    obtain ⟨p, hp, hpk⟩ := hk
    refine ⟨p, hp, ?_⟩
    rw [hpk, hcur, hprev]
    show (if v ≠ pv then some (k, v) else none) = some (k, v)
    rw [if_pos hne]

theorem diff_eq_nil_of_agree {V : Type} [DecidableEq V] {w : Workitem V}
    {item orig : RawRecord V} (hi : w.polarion_item = some item)
    (ho : w.original_polarion = some orig)
    (h : ∀ k ∈ item.fields.map Prod.fst,
      lookupF w.shadow k = lookupF orig.fields k) :
    w.diff = [] := by
  unfold Workitem.diff
  rw [hi, ho, List.filterMap_eq_nil_iff]
  intro p hp
  have hk := h p.1 (List.mem_map.mpr ⟨p, hp, rfl⟩)
  rcases h2 : lookupF orig.fields p.1 with _ | pv <;> rw [h2] at hk
  · rw [hk]
  · rw [hk]
    show (if pv ≠ pv then some (p.1, pv) else none) = none
    rw [if_neg (by simp)]

/-- The diff loop never reads the deferred-save flag. -/
theorem diff_set_flag {V : Type} [DecidableEq V] (w : Workitem V) (b : Bool) :
    ({ w with postpone_save := b } : Workitem V).diff = w.diff := by
  cases w
  rfl

theorem save_of_postponed {V : Type} [DecidableEq V] (w : Workitem V)
    (h : w.postpone_save = true) (remote : RemoteOutcome V) :
    w.save remote = ⟨w, none, []⟩ := by
  unfold Workitem.save
  rw [if_pos h]

theorem save_of_no_diff {V : Type} [DecidableEq V] (w : Workitem V)
    (hp : w.postpone_save = false) (hd : w.diff = [])
    (remote : RemoteOutcome V) : w.save remote = ⟨w, none, []⟩ := by
  unfold Workitem.save
  simp only [hp, Bool.false_eq_true, if_false, hd, List.length_nil,
    Nat.lt_irrefl]

theorem save_of_diff_fail {V : Type} [DecidableEq V] (w : Workitem V)
    (hp : w.postpone_save = false) (hd : w.diff ≠ []) :
    w.save RemoteOutcome.fail
      = ⟨w, some SaveError.remoteUpdateError, [⟨w.diff, w.uri⟩]⟩ := by
  unfold Workitem.save
  rw [hp]
  simp only [Bool.false_eq_true, if_false]
  rw [if_pos (List.length_pos.mpr hd)]

theorem save_of_diff_ok {V : Type} [DecidableEq V] (w : Workitem V)
    (fetched : RawRecord V) (hp : w.postpone_save = false) (hd : w.diff ≠ [])
    (hres : fetched.unresolvable = false) :
    w.save (RemoteOutcome.ok fetched)
      = ⟨{ w with polarion_item := some fetched,
                  original_polarion := some fetched,
                  shadow := projectFields w.shadow fetched.fields },
         none, [⟨w.diff, w.uri⟩]⟩ := by
  unfold Workitem.save
  rw [hp]
  simp only [Bool.false_eq_true, if_false]
  rw [if_pos (List.length_pos.mpr hd)]
  unfold Workitem.reloadFromPolarion Workitem.buildWorkitemFromPolarion
  simp only [hres, Bool.false_eq_true, if_false, hp, if_true]

theorem save_of_diff_ok_unresolvable {V : Type} [DecidableEq V]
    (w : Workitem V) (fetched : RawRecord V) (hp : w.postpone_save = false)
    (hd : w.diff ≠ []) (hres : fetched.unresolvable = true) :
    w.save (RemoteOutcome.ok fetched)
      = ⟨{ w with polarion_item := some fetched },
         some SaveError.accessError, [⟨w.diff, w.uri⟩]⟩ := by
  unfold Workitem.save
  rw [hp]
  simp only [Bool.false_eq_true, if_false]
  rw [if_pos (List.length_pos.mpr hd)]
  unfold Workitem.reloadFromPolarion Workitem.buildWorkitemFromPolarion
  simp only [hres, if_true]
  rw [hp]

/-- In every branch of `save` the deferred-save flag is untouched. -/
theorem save_state_flag {V : Type} [DecidableEq V] (w : Workitem V)
    (remote : RemoteOutcome V) :
    (w.save remote).state.postpone_save = w.postpone_save := by
  by_cases h : w.postpone_save = true
  · rw [save_of_postponed w h remote]
  · have hp : w.postpone_save = false := Bool.eq_false_iff.mpr h
    by_cases hd : w.diff = []
    · rw [save_of_no_diff w hp hd remote]
    · cases remote with
      | fail => rw [save_of_diff_fail w hp hd]
      | ok fetched =>
        by_cases hres : fetched.unresolvable = true
        · rw [save_of_diff_ok_unresolvable w fetched hp hd hres]
        · rw [save_of_diff_ok w fetched hp hd (Bool.eq_false_iff.mpr hres)]

/-- Mutations touch only the shadow: the raw record, the snapshot, the
flag and the uri are unchanged by any mutation sequence. -/
theorem mutateAll_fixed {V : Type} (w : Workitem V) (ms : List (String × V)) :
    (w.mutateAll ms).polarion_item = w.polarion_item ∧
    (w.mutateAll ms).original_polarion = w.original_polarion ∧
    (w.mutateAll ms).postpone_save = w.postpone_save ∧
    (w.mutateAll ms).uri = w.uri := by
  induction ms generalizing w with
  | nil => exact ⟨rfl, rfl, rfl, rfl⟩
  | cons m rest ih =>
    have step : w.mutateAll (m :: rest) = (w.setField m.1 m.2).mutateAll rest := rfl
    rw [step]
    exact ih (w.setField m.1 m.2)

/-! Lemmas about the link iterator. -/

/-- `drainBody` is exactly the loop that calls `__next__` until it stops:
each round either the body yields the next edge, ends normally, or its
`AttributeError`/`IndexError` is caught and converted to the end
signal. -/
theorem drainBody_eq_scanBody {V : Type} (dis allow : Option (List String))
    (l : List (RawLinkedWorkitem V)) :
    drainBody dis allow l =
      (match scanBody dis allow l with
       | Except.error _ => []
       | Except.ok none => []
       | Except.ok (some (e, rest)) => e :: drainBody dis allow rest) := by
  induction l with
  | nil => rfl
  | cons obj rest ih =>
    cases hou : obj.workItemURI with
    | none => simp [drainBody, scanBody, hou]
    | some u =>
      by_cases hr : rolePasses dis allow (deriveRole obj) = true
      · simp [drainBody, scanBody, hou, hr]
      · simp only [drainBody, scanBody, hou, Bool.eq_false_iff.mpr hr,
          Bool.false_eq_true, if_false]
        exact ih

theorem foldl_parseStep_dis (rs : List String) (f : RoleFilters) :
    (rs.foldl parseStep f).disallowed_roles =
      if denyTokens rs = [] then f.disallowed_roles
      else some (f.disallowed_roles.getD [] ++ denyTokens rs) := by
  induction rs generalizing f with
  | nil => simp [denyTokens]
  | cons r rest ih =>
    rw [List.foldl_cons, ih (parseStep f r)]
    by_cases hb : r.startsWith "~" = true
    · have hstep : parseStep f r = { f with
          disallowed_roles := some (f.disallowed_roles.getD [] ++ [r.drop 1]) } := by
        unfold parseStep; rw [if_pos hb]
      have hdt : denyTokens (r :: rest) = r.drop 1 :: denyTokens rest := by
        simp [denyTokens, hb]
      rw [hstep, hdt]
      by_cases hrest : denyTokens rest = []
      · rw [if_pos hrest, if_neg (List.cons_ne_nil _ _)]
        simp [hrest]
      · rw [if_neg hrest, if_neg (List.cons_ne_nil _ _)]
        simp
    · have hstep : parseStep f r = { f with
          allowed_roles := some (f.allowed_roles.getD [] ++ [r]) } := by
        unfold parseStep; rw [if_neg hb]
      have hdt : denyTokens (r :: rest) = denyTokens rest := by
        simp [denyTokens, Bool.eq_false_iff.mpr hb]
      rw [hstep, hdt]

theorem foldl_parseStep_allow (rs : List String) (f : RoleFilters) :
    (rs.foldl parseStep f).allowed_roles =
      if allowTokens rs = [] then f.allowed_roles
      else some (f.allowed_roles.getD [] ++ allowTokens rs) := by
  induction rs generalizing f with
  | nil => simp [allowTokens]
  | cons r rest ih =>
    rw [List.foldl_cons, ih (parseStep f r)]
    by_cases hb : r.startsWith "~" = true
    · have hstep : parseStep f r = { f with
          disallowed_roles := some (f.disallowed_roles.getD [] ++ [r.drop 1]) } := by
        unfold parseStep; rw [if_pos hb]
      have hdt : allowTokens (r :: rest) = allowTokens rest := by
        simp [allowTokens, hb]
      rw [hstep, hdt]
    · have hstep : parseStep f r = { f with
          allowed_roles := some (f.allowed_roles.getD [] ++ [r]) } := by
        unfold parseStep; rw [if_neg hb]
      have hdt : allowTokens (r :: rest) = r :: allowTokens rest := by
        simp [allowTokens, Bool.eq_false_iff.mpr hb]
      rw [hstep, hdt]
      by_cases hrest : allowTokens rest = []
      · rw [if_pos hrest, if_neg (List.cons_ne_nil _ _)]
        simp [hrest]
      · rw [if_neg hrest, if_neg (List.cons_ne_nil _ _)]
        simp

/-- The source's allow/deny predicate over the parsed filters agrees with
the claimed membership predicate over the token partition. -/
theorem rolePasses_parseRoles (rs : List String) (role : String) :
    rolePasses (parseRoles (some rs)).disallowed_roles
      (parseRoles (some rs)).allowed_roles role = claimMatches rs role := by
  unfold parseRoles
  rw [show (rs.foldl parseStep ⟨none, none⟩).allowed_roles
        = (if allowTokens rs = [] then none
           else some ((none : Option (List String)).getD [] ++ allowTokens rs))
      from foldl_parseStep_allow rs ⟨none, none⟩]
  rw [show (rs.foldl parseStep ⟨none, none⟩).disallowed_roles
        = (if denyTokens rs = [] then none
           else some ((none : Option (List String)).getD [] ++ denyTokens rs))
      from foldl_parseStep_dis rs ⟨none, none⟩]
  by_cases hd : denyTokens rs = [] <;> by_cases ha : allowTokens rs = []
  · simp [rolePasses, claimMatches, hd, ha]
  · simp [rolePasses, claimMatches, hd, ha, List.isEmpty_eq_false.mpr ha]
  · simp [rolePasses, claimMatches, hd, ha, List.isEmpty_eq_false.mpr hd]
  · simp [rolePasses, claimMatches, hd, ha, List.isEmpty_eq_false.mpr hd,
      List.isEmpty_eq_false.mpr ha]

/-- Over a list of raw edges that all carry a target, `drainBody` is the
order-preserving filter of the derived edges. -/
theorem drainBody_filter {V : Type} (dis allow : Option (List String))
    (l : List (RawLinkedWorkitem V)) (h : ∀ e ∈ l, e.workItemURI.isSome) :
    drainBody dis allow l
      = (l.filterMap (fun e =>
            e.workItemURI.map (fun u => LinkedWorkitem.mk (deriveRole e) u))).filter
          (fun e => rolePasses dis allow e.role) := by
  induction l with
  | nil => rfl
  | cons obj rest ih =>
    have hu := h obj (List.mem_cons_self _ _)
    have hrest : ∀ e ∈ rest, e.workItemURI.isSome :=
      fun e he => h e (List.mem_cons_of_mem _ he)
    cases hou : obj.workItemURI with
    | none => rw [hou] at hu; simp at hu
    | some u =>
      by_cases hr : rolePasses dis allow (deriveRole obj) = true
      · simp [drainBody, hou, hr, ih hrest, List.filter_cons]
      · simp only [drainBody, hou, Bool.eq_false_iff.mpr hr, Bool.false_eq_true,
          if_false, List.filterMap_cons, Option.map_some, List.filter_cons]
        rw [ih hrest]
        simp [Bool.eq_false_iff.mpr hr]

/-- A raw edge missing its target attribute ends the iteration: the edges
scanned before it are yielded, it and everything after it are dropped. -/
theorem drainBody_truncates {V : Type} (dis allow : Option (List String))
    (good : List (RawLinkedWorkitem V)) (bad : RawLinkedWorkitem V)
    (post : List (RawLinkedWorkitem V))
    (h : ∀ e ∈ good, e.workItemURI.isSome) (hbad : bad.workItemURI = none) :
    drainBody dis allow (good ++ bad :: post) = drainBody dis allow good := by
  induction good with
  | nil => simp [drainBody, hbad]
  | cons obj rest ih =>
    have hu := h obj (List.mem_cons_self _ _)
    have hrest : ∀ e ∈ rest, e.workItemURI.isSome :=
      fun e he => h e (List.mem_cons_of_mem _ he)
    cases hou : obj.workItemURI with
    | none => rw [hou] at hu; simp at hu
    | some u =>
      by_cases hr : rolePasses dis allow (deriveRole obj) = true
      · simp [drainBody, hou, hr, ih hrest]
      · simp only [List.cons_append, drainBody, hou, Bool.eq_false_iff.mpr hr,
          Bool.false_eq_true, if_false]
        exact ih hrest

/-! Concrete sample states used by witnesses and counterexamples. -/

/-- A resolvable raw record with the single field `t = 1`. -/
def sampleRec : RawRecord Nat := ⟨false, [("t", 1)]⟩

/-- A loaded entity whose shadow field `t` was mutated to `2` while the
snapshot still holds `1` (a dirty, non-postponed state; it is the result
of `constructWorkitem "u" sampleRec` followed by `setField "t" 2`). -/
def sampleDirty : Workitem Nat := ⟨some sampleRec, some sampleRec, [("t", 2)], false, "u"⟩

/-- A loaded clean entity: shadow and snapshot both hold `t = 1`. -/
def sampleClean : Workitem Nat := ⟨some sampleRec, some sampleRec, [("t", 1)], false, "u"⟩

/-! The claims. -/

/-- Claim C1: for every loaded entity, `save` sends upstream only the
fields whose current shadow value differs (by value equality) from the
snapshot value — every issued update call carries exactly the diff, and
every diff entry is a shadow value differing from the snapshot value —
and when no field differs it issues zero remote update calls.  (The
identifying reference added at line 927 is the call's `uri` component,
not one of its fields.) -/
theorem save_minimal_diff {V : Type} [DecidableEq V] (w : Workitem V)
    (remote : RemoteOutcome V) (item orig : RawRecord V)
    (hi : w.polarion_item = some item) (ho : w.original_polarion = some orig) :
    (∀ c ∈ (w.save remote).calls, c.fields = w.diff)
    ∧ (∀ k v, (k, v) ∈ w.diff →
        lookupF w.shadow k = some v ∧ lookupF orig.fields k ≠ some v)
    ∧ ((∀ k ∈ item.fields.map Prod.fst,
          lookupF w.shadow k = lookupF orig.fields k) →
        (w.save remote).calls = []) := by
  refine ⟨?_, ?_, ?_⟩
  · intro c hc
    by_cases h : w.postpone_save = true
    · rw [save_of_postponed w h remote] at hc
      simp at hc
    · have hp := Bool.eq_false_iff.mpr h
      by_cases hd : w.diff = []
      · rw [save_of_no_diff w hp hd remote] at hc
        simp at hc
      · cases remote with
        | fail =>
          rw [save_of_diff_fail w hp hd] at hc
          simp at hc
          rw [hc]
        | ok fetched =>
          by_cases hres : fetched.unresolvable = true
          · rw [save_of_diff_ok_unresolvable w fetched hp hd hres] at hc
            simp at hc
            rw [hc]
          · rw [save_of_diff_ok w fetched hp hd (Bool.eq_false_iff.mpr hres)] at hc
            simp at hc
            rw [hc]
  · intro k v hkv
    obtain ⟨_, hcur, pv, hpv, hne⟩ := (mem_diff hi ho k v).mp hkv
    refine ⟨hcur, ?_⟩
    rw [hpv]
    intro hcon
    exact hne (Option.some.inj hcon).symm
  · intro hagree
    have hd := diff_eq_nil_of_agree hi ho hagree
    by_cases h : w.postpone_save = true
    · rw [save_of_postponed w h remote]
    · rw [save_of_no_diff w (Bool.eq_false_iff.mpr h) hd remote]

/-- Witness for C1: on the concrete dirty entity the theorem yields that
the changed field `t` is sent with shadow value `2`, which differs from
the snapshot value. -/
theorem save_minimal_diff_witness :
    lookupF sampleDirty.shadow "t" = some 2
    ∧ lookupF sampleRec.fields "t" ≠ some 2 :=
  (save_minimal_diff sampleDirty RemoteOutcome.fail sampleRec sampleRec
    rfl rfl).2.1 "t" 2 (by decide)

/-- Claim C5: a raising remote update call propagates out of `save`, and
the entity is left exactly as it was — shadow untouched, snapshot not
re-baselined — so it is still dirty. -/
theorem save_failure_preserves_state {V : Type} [DecidableEq V]
    (w : Workitem V) (hp : w.postpone_save = false) (hd : w.diff ≠ []) :
    (w.save RemoteOutcome.fail).error = some SaveError.remoteUpdateError
    ∧ (w.save RemoteOutcome.fail).state = w
    ∧ (w.save RemoteOutcome.fail).state.shadow = w.shadow
    ∧ (w.save RemoteOutcome.fail).state.original_polarion = w.original_polarion
    ∧ (w.save RemoteOutcome.fail).state.diff ≠ [] := by
  rw [save_of_diff_fail w hp hd]
  exact ⟨rfl, rfl, rfl, rfl, hd⟩

/-- Witness for C5 at the concrete dirty entity. -/
theorem save_failure_preserves_state_witness :
    (sampleDirty.save RemoteOutcome.fail).error = some SaveError.remoteUpdateError
    ∧ (sampleDirty.save RemoteOutcome.fail).state = sampleDirty
    ∧ (sampleDirty.save RemoteOutcome.fail).state.shadow = sampleDirty.shadow
    ∧ (sampleDirty.save RemoteOutcome.fail).state.original_polarion
        = sampleDirty.original_polarion
    ∧ (sampleDirty.save RemoteOutcome.fail).state.diff ≠ [] :=
  save_failure_preserves_state sampleDirty rfl (by decide)

/-- Claim C6: for an entity with at least one changed field, after a
`save` whose update call and reload both succeed, the diff between shadow
and snapshot is empty again.  (`hnd` holds for every Python record: dict
keys are unique.) -/
theorem save_reconverges {V : Type} [DecidableEq V] (w : Workitem V)
    (fetched : RawRecord V) (hp : w.postpone_save = false) (hd : w.diff ≠ [])
    (hres : fetched.unresolvable = false)
    (hnd : (fetched.fields.map Prod.fst).Nodup) :
    (w.save (RemoteOutcome.ok fetched)).error = none
    ∧ (w.save (RemoteOutcome.ok fetched)).state.diff = [] := by
  rw [save_of_diff_ok w fetched hp hd hres]
  refine ⟨rfl, ?_⟩
  exact @diff_eq_nil_of_agree V _ _ fetched fetched rfl rfl
    (fun k hk => lookupF_projectFields_mem fetched.fields w.shadow k hnd hk)

/-- Witness for C6 at the concrete dirty entity: a successful save
against the original record re-converges. -/
theorem save_reconverges_witness :
    (sampleDirty.save (RemoteOutcome.ok sampleRec)).error = none
    ∧ (sampleDirty.save (RemoteOutcome.ok sampleRec)).state.diff = [] :=
  save_reconverges sampleDirty sampleRec rfl (by decide) rfl (by decide)

/-- Claim C7: scope exit — for every exception state of the scope body —
unconditionally clears the postponed flag and then performs exactly one
`save` on the flag-cleared state; the flag stays false afterwards even
when `save` raises, and any error of that `save` is the one `exit`
propagates. -/
theorem exit_clears_flag_then_saves {V : Type} [DecidableEq V]
    (w : Workitem V) (exc : Option Unit) (remote : RemoteOutcome V) :
    w.exitScope exc remote
      = ({ w with postpone_save := false } : Workitem V).save remote
    ∧ (w.exitScope exc remote).state.postpone_save = false := by
  refine ⟨rfl, ?_⟩
  rw [show w.exitScope exc remote
        = ({ w with postpone_save := false } : Workitem V).save remote from rfl,
      save_state_flag]

/-- Counterexample to C2 as stated: entering the deferred-save scope on a
clean loaded entity, performing the single mutation that writes the
snapshot value back (N = 1), and exiting issues zero remote update calls,
not exactly one. -/
theorem scope_exit_single_call_cex :
    ((sampleClean.enterScope.mutateAll [("t", 1)]).exitScope none
        (RemoteOutcome.ok sampleRec)).calls = [] := by decide

/-- Claim C2 (amended): entering the deferred-save scope, performing any
sequence of field mutations, and exiting issues at most one remote update
call — exactly one when at least one field's final value differs from the
snapshot, zero when none differs — and the single call carries exactly
the fields whose final shadow value differs from the snapshot (the union
of the mutations' net effect, not one call per mutation). -/
theorem scope_exit_single_call {V : Type} [DecidableEq V] (w : Workitem V)
    (ms : List (String × V)) (remote : RemoteOutcome V)
    (item orig : RawRecord V) (hi : w.polarion_item = some item)
    (ho : w.original_polarion = some orig)
    (hload : ∀ k ∈ item.fields.map Prod.fst, (lookupF orig.fields k).isSome) :
    ((w.enterScope.mutateAll ms).exitScope none remote).calls.length ≤ 1
    ∧ ((w.enterScope.mutateAll ms).diff = [] →
        ((w.enterScope.mutateAll ms).exitScope none remote).calls = [])
    ∧ ((w.enterScope.mutateAll ms).diff ≠ [] →
        ((w.enterScope.mutateAll ms).exitScope none remote).calls
          = [⟨(w.enterScope.mutateAll ms).diff, w.uri⟩])
    ∧ (∀ k v, ((k, v) ∈ (w.enterScope.mutateAll ms).diff ↔
        (k ∈ item.fields.map Prod.fst
          ∧ lookupF (w.enterScope.mutateAll ms).shadow k = some v
          ∧ lookupF orig.fields k ≠ some v))) := by
  have hfix := mutateAll_fixed w.enterScope ms
  have hpi : (w.enterScope.mutateAll ms).polarion_item = some item := by
    rw [hfix.1]; exact hi
  have hor : (w.enterScope.mutateAll ms).original_polarion = some orig := by
    rw [hfix.2.1]; exact ho
  have huri : (w.enterScope.mutateAll ms).uri = w.uri := hfix.2.2.2
  have hexit : (w.enterScope.mutateAll ms).exitScope none remote
      = ({ w.enterScope.mutateAll ms with postpone_save := false } : Workitem V).save
          remote := rfl
  have hfd : ({ w.enterScope.mutateAll ms with
        postpone_save := false } : Workitem V).diff
      = (w.enterScope.mutateAll ms).diff := diff_set_flag _ false
  have hfp : ({ w.enterScope.mutateAll ms with
      postpone_save := false } : Workitem V).postpone_save = false := rfl
  have hcalls : ((w.enterScope.mutateAll ms).exitScope none remote).calls
      = (if (w.enterScope.mutateAll ms).diff = [] then []
         else [⟨(w.enterScope.mutateAll ms).diff,
                (w.enterScope.mutateAll ms).uri⟩]) := by
    by_cases hd : (w.enterScope.mutateAll ms).diff = []
    · rw [hexit, save_of_no_diff _ hfp (hfd.trans hd) remote, if_pos hd]
    · have hd' : ({ w.enterScope.mutateAll ms with
          postpone_save := false } : Workitem V).diff ≠ [] := by
        rw [hfd]; exact hd
      rw [if_neg hd]
      cases remote with
      | fail =>
        rw [hexit, save_of_diff_fail _ hfp hd']
        exact congrArg
          (fun d => [(⟨d, (w.enterScope.mutateAll ms).uri⟩ : UpdateCall V)]) hfd
      | ok fetched =>
        by_cases hres : fetched.unresolvable = true
        · rw [hexit, save_of_diff_ok_unresolvable _ fetched hfp hd' hres]
          exact congrArg
            (fun d => [(⟨d, (w.enterScope.mutateAll ms).uri⟩ : UpdateCall V)]) hfd
        · rw [hexit, save_of_diff_ok _ fetched hfp hd'
            (Bool.eq_false_iff.mpr hres)]
          exact congrArg
            (fun d => [(⟨d, (w.enterScope.mutateAll ms).uri⟩ : UpdateCall V)]) hfd
  refine ⟨?_, ?_, ?_, ?_⟩
  · rw [hcalls]
    split <;> simp
  · intro hd
    rw [hcalls, if_pos hd]
  · intro hd
    rw [hcalls, if_neg hd, huri]
  · intro k v
    rw [mem_diff hpi hor k v]
    constructor
    · rintro ⟨hk, hcur, pv, hpv, hne⟩
      refine ⟨hk, hcur, ?_⟩
      rw [hpv]
      intro hcon
      exact hne (Option.some.inj hcon).symm
    · rintro ⟨hk, hcur, hne⟩
      rcases hsome : lookupF orig.fields k with _ | pv
      · have hs := hload k hk
        rw [hsome] at hs
        simp at hs
      · refine ⟨hk, hcur, pv, rfl, ?_⟩
        intro hvp
        apply hne
        rw [hsome, hvp]

/-- Witness for the amended C2: on a clean entity, scope-entry, the
single mutation `t := 2` and scope-exit issue the one call carrying the
diff. -/
theorem scope_exit_single_call_witness :
    ((sampleClean.enterScope.mutateAll [("t", 2)]).exitScope none
        RemoteOutcome.fail).calls
      = [⟨(sampleClean.enterScope.mutateAll [("t", 2)]).diff, sampleClean.uri⟩] :=
  (scope_exit_single_call sampleClean [("t", 2)] RemoteOutcome.fail sampleRec
    sampleRec rfl rfl (by decide)).2.2.1 (by decide)

/-- Counterexample to C3 as stated: a reload that occurs while the
deferred-save flag is set skips the projection, so the shadow (`t = 2`)
differs from the freshly swapped snapshot (`t = 1`) immediately after the
reload.  The dirty state is reached from construction by a mutation. -/
theorem shadow_matches_snapshot_cex :
    constructWorkitem "u" sampleRec = Except.ok sampleClean
    ∧ sampleClean.setField "t" 2 = sampleDirty
    ∧ sampleDirty.enterScope.reloadFromPolarion sampleRec
        = Except.ok ⟨some sampleRec, some sampleRec, [("t", 2)], true, "u"⟩
    ∧ lookupF [("t", (2 : Nat))] "t" = some 2
    ∧ lookupF sampleRec.fields "t" = some 1 := by
  exact ⟨rfl, rfl, rfl, rfl, rfl⟩

/-- Claim C3 (amended): immediately after construction, and after every
reload performed while the deferred-save flag is clear, the shadow equals
the snapshot field-by-field; a reload performed while the flag is set
swaps in the new snapshot but leaves the shadow untouched. -/
theorem shadow_matches_snapshot_after_build {V : Type} [DecidableEq V]
    (w : Workitem V) (u : String) (fetched : RawRecord V)
    (w₁ w₂ w₃ : Workitem V) (hnd : (fetched.fields.map Prod.fst).Nodup) :
    (constructWorkitem u fetched = Except.ok w₁ →
      w₁.original_polarion = some fetched
      ∧ ∀ k ∈ fetched.fields.map Prod.fst,
          lookupF w₁.shadow k = lookupF fetched.fields k)
    ∧ (w.postpone_save = false →
        w.reloadFromPolarion fetched = Except.ok w₂ →
      w₂.original_polarion = some fetched
      ∧ ∀ k ∈ fetched.fields.map Prod.fst,
          lookupF w₂.shadow k = lookupF fetched.fields k)
    ∧ (w.postpone_save = true →
        w.reloadFromPolarion fetched = Except.ok w₃ →
      w₃.original_polarion = some fetched ∧ w₃.shadow = w.shadow) := by
  refine ⟨?_, ?_, ?_⟩
  · intro h1
    unfold constructWorkitem Workitem.buildWorkitemFromPolarion at h1
    by_cases hres : fetched.unresolvable = true
    · simp [hres] at h1
    · simp [Bool.eq_false_iff.mpr hres] at h1
      subst h1
      exact ⟨rfl, fun k hk =>
        lookupF_projectFields_mem fetched.fields [] k hnd hk⟩
  · intro hp h2
    unfold Workitem.reloadFromPolarion Workitem.buildWorkitemFromPolarion at h2
    by_cases hres : fetched.unresolvable = true
    · simp [hres] at h2
    · simp [Bool.eq_false_iff.mpr hres, hp] at h2
      subst h2
      exact ⟨rfl, fun k hk =>
        lookupF_projectFields_mem fetched.fields w.shadow k hnd hk⟩
  · intro hp h3
    unfold Workitem.reloadFromPolarion Workitem.buildWorkitemFromPolarion at h3
    by_cases hres : fetched.unresolvable = true
    · simp [hres] at h3
    · simp [Bool.eq_false_iff.mpr hres, hp] at h3
      subst h3
      exact ⟨rfl, rfl⟩

/-- Witness for the amended C3: reloading the dirty entity with the flag
clear re-projects, so the shadow again matches the snapshot value of
`t`. -/
theorem shadow_matches_snapshot_after_build_witness :
    (⟨some sampleRec, some sampleRec, [("t", 1)], false, "u"⟩ : Workitem Nat).original_polarion
        = some sampleRec
    ∧ lookupF (⟨some sampleRec, some sampleRec, [("t", 1)], false,
          "u"⟩ : Workitem Nat).shadow "t" = lookupF sampleRec.fields "t" :=
  ⟨((shadow_matches_snapshot_after_build sampleDirty "u" sampleRec
      sampleClean ⟨some sampleRec, some sampleRec, [("t", 1)], false, "u"⟩
      sampleClean (by decide)).2.1 rfl rfl).1,
   ((shadow_matches_snapshot_after_build sampleDirty "u" sampleRec
      sampleClean ⟨some sampleRec, some sampleRec, [("t", 1)], false, "u"⟩
      sampleClean (by decide)).2.1 rfl rfl).2 "t" (by decide)⟩

/-- Counterexample to C8 as stated: on a dirty entity with two nested
scope entries, the first (inner) exit already issues the flush (one
update call) and leaves saves un-suppressed, although the conceptual
outer scope has not exited — the claim predicts zero calls and continued
suppression until the outermost exit. -/
theorem nested_scope_cex :
    (sampleDirty.enterScope.enterScope.exitScope none
        (RemoteOutcome.ok sampleRec)).calls.length = 1
    ∧ (sampleDirty.enterScope.enterScope.exitScope none
        (RemoteOutcome.ok sampleRec)).state.postpone_save = false := by decide

/-- Claim C8 (amended): nested deferred-save scopes collapse onto the
single boolean flag: a second entry is the identity on an
already-postponed entity, a doubly entered scope exits exactly like a
singly entered one, and the first exit — the inner one — already clears
the flag and performs the flush (one update call when the diff is
nonempty). -/
theorem nested_scope_collapse {V : Type} [DecidableEq V] (w : Workitem V)
    (exc : Option Unit) (remote : RemoteOutcome V) :
    w.enterScope.enterScope = w.enterScope
    ∧ (w.enterScope.enterScope.exitScope exc remote
        = w.enterScope.exitScope exc remote)
    ∧ ((w.enterScope.enterScope.exitScope exc remote).state.postpone_save
        = false)
    ∧ (w.enterScope.enterScope.diff ≠ [] →
        (w.enterScope.enterScope.exitScope exc remote).calls.length = 1) := by
  refine ⟨rfl, rfl, ?_, ?_⟩
  · rw [show w.enterScope.enterScope.exitScope exc remote
        = ({ w.enterScope.enterScope with
              postpone_save := false } : Workitem V).save remote from rfl,
      save_state_flag]
  · intro hd
    have hfp : ({ w.enterScope.enterScope with
        postpone_save := false } : Workitem V).postpone_save = false := rfl
    have hd' : ({ w.enterScope.enterScope with
        postpone_save := false } : Workitem V).diff ≠ [] := by
      rw [diff_set_flag]; exact hd
    show (({ w.enterScope.enterScope with
        postpone_save := false } : Workitem V).save remote).calls.length = 1
    cases remote with
    | fail =>
      rw [save_of_diff_fail _ hfp hd']
      rfl
    | ok fetched =>
      by_cases hres : fetched.unresolvable = true
      · rw [save_of_diff_ok_unresolvable _ fetched hfp hd' hres]
        rfl
      · rw [save_of_diff_ok _ fetched hfp hd' (Bool.eq_false_iff.mpr hres)]
        rfl

/-- Witness for the amended C8: the inner exit on the dirty entity issues
exactly one call. -/
theorem nested_scope_collapse_witness :
    (sampleDirty.enterScope.enterScope.exitScope none
        RemoteOutcome.fail).calls.length = 1 :=
  (nested_scope_collapse sampleDirty none RemoteOutcome.fail).2.2.2 (by decide)

/-- Claim C4: over a raw edge sequence (each edge carrying a target) and
a filter token set split into the allow-list (plain tokens) and deny-list
(`~`-prefixed tokens), the iterator yields exactly the derived edges
whose role satisfies (deny-list empty or role not in it) and (allow-list
empty or role in it), in the raw sequence's original order, without
reordering or deduplication. -/
theorem iterator_filter_order {V : Type} (lst : List (RawLinkedWorkitem V))
    (rs : List String) (h : ∀ e ∈ lst, e.workItemURI.isSome) :
    iterateLinkedWorkItems (some ⟨some lst⟩) (some rs)
      = (lst.filterMap (fun e =>
            e.workItemURI.map (fun u => LinkedWorkitem.mk (deriveRole e) u))).filter
          (fun e => claimMatches rs e.role) := by
  show drainBody (parseRoles (some rs)).disallowed_roles
      (parseRoles (some rs)).allowed_roles lst = _
  rw [drainBody_filter (parseRoles (some rs)).disallowed_roles
      (parseRoles (some rs)).allowed_roles lst h]
  exact List.filter_congr (fun e _ => rolePasses_parseRoles rs e.role)

/-- Witness for C4 at the spec's own example: three edges with roles
`verifies, verifies, parent` filtered by the allow-list `[verifies]`. -/
theorem iterator_filter_order_witness :
    iterateLinkedWorkItems
        (some ⟨some [⟨some "verifies", some "A"⟩, ⟨some "verifies", some "B"⟩,
          ⟨some "parent", some "C"⟩]⟩) (some ["verifies"])
      = (([⟨some "verifies", some "A"⟩, ⟨some "verifies", some "B"⟩,
            ⟨some "parent", some "C"⟩] : List (RawLinkedWorkitem String)).filterMap
            (fun e => e.workItemURI.map
              (fun u => LinkedWorkitem.mk (deriveRole e) u))).filter
          (fun e => claimMatches ["verifies"] e.role) :=
  iterator_filter_order
    [⟨some "verifies", some "A"⟩, ⟨some "verifies", some "B"⟩,
      ⟨some "parent", some "C"⟩] ["verifies"] (by decide)

/-- Claim C9: a raw edge whose role sub-structure is absent is yielded
with the `NA` sentinel role, and it passes the filter exactly when the
deny-list is empty or does not contain the sentinel, and the allow-list
is empty or contains it (the empty token set allows everything). -/
theorem roleless_edge_sentinel {V : Type} (u : V) (rs : List String) :
    deriveRole (⟨none, some u⟩ : RawLinkedWorkitem V) = "NA"
    ∧ iterateLinkedWorkItems (some ⟨some [⟨none, some u⟩]⟩) (some rs)
      = (if claimMatches rs "NA" = true then [⟨"NA", u⟩] else []) := by
  refine ⟨rfl, ?_⟩
  show (if rolePasses (parseRoles (some rs)).disallowed_roles
          (parseRoles (some rs)).allowed_roles "NA" = true
        then [(⟨"NA", u⟩ : LinkedWorkitem V)] else [])
    = (if claimMatches rs "NA" = true then [⟨"NA", u⟩] else [])
  rw [rolePasses_parseRoles rs "NA"]

/-- Claim C10: a null raw edge container, a container without the
edge-list sub-structure, and a scan that hits an attribute access fault
partway (an edge missing its target field) all end the iteration with the
end-of-sequence signal — yielding the empty, or the truncated, sequence —
instead of propagating the fault: the body's `AttributeError` is caught
by the iterator's handler. -/
theorem iterator_fault_tolerance {V : Type} (rs : List String)
    (good : List (RawLinkedWorkitem V)) (r : Option String)
    (post : List (RawLinkedWorkitem V))
    (h : ∀ e ∈ good, e.workItemURI.isSome) :
    iterateLinkedWorkItems (none : Option (RawLinkContainer V)) (some rs) = []
    ∧ iterateLinkedWorkItems (some (⟨none⟩ : RawLinkContainer V)) (some rs) = []
    ∧ iterateLinkedWorkItems (some ⟨some (good ++ ⟨r, none⟩ :: post)⟩) (some rs)
        = iterateLinkedWorkItems (some ⟨some good⟩) (some rs)
    ∧ scanBody (parseRoles (some rs)).disallowed_roles
        (parseRoles (some rs)).allowed_roles (⟨r, none⟩ :: post)
        = Except.error PyFault.attributeError := by
  refine ⟨rfl, rfl, ?_, ?_⟩
  · show drainBody (parseRoles (some rs)).disallowed_roles
        (parseRoles (some rs)).allowed_roles (good ++ ⟨r, none⟩ :: post)
      = drainBody (parseRoles (some rs)).disallowed_roles
          (parseRoles (some rs)).allowed_roles good
    exact drainBody_truncates _ _ good ⟨r, none⟩ post h rfl
  · rfl

/-- Witness for C10: a well-formed edge, then an edge missing its target,
then another well-formed edge; iteration yields only the first edge. -/
theorem iterator_fault_tolerance_witness :
    iterateLinkedWorkItems
        (some ⟨some ([⟨some "a", some "A"⟩] ++ ⟨some "x", none⟩ ::
          [⟨some "b", some "B"⟩])⟩) (some ([] : List String))
      = iterateLinkedWorkItems
          (some ⟨some [(⟨some "a", some "A"⟩ : RawLinkedWorkitem String)]⟩)
          (some ([] : List String)) :=
  (iterator_fault_tolerance [] [⟨some "a", some "A"⟩] (some "x")
    [⟨some "b", some "B"⟩] (by decide)).2.2.1

end Polarion
